import Mathlib

/-!
Shallow embedding of the reference-count insertion pass of the roc compiler
back-end (`compiler/mono/src/code_gen_help/refcount.rs`), together with
theorems checking the natural-language specification of that pass against
the code.

The emitter functions are translated directly from the Rust source.  The
identifier generator (`IdentIds`) is modelled by a `Nat` counter threaded
through every function that calls `create_symbol`; debug name strings are
dropped (a fresh symbol is just its counter value).  Arena allocation is
immaterial in a purely functional embedding.  Fallible code (`unreachable!`,
`todo!`, `.unwrap()`) is modelled with `Option`.
-/

set_option linter.unusedVariables false

namespace Roc

/-- Integer widths of the IR (`roc_builtins::bitcode::IntWidth`). -/
inductive IntWidth where
  | U8 | U16 | U32 | U64 | U128 | I8 | I16 | I32 | I64 | I128
  deriving DecidableEq

/-- Float widths of the IR. -/
inductive FloatWidth where
  | F32 | F64 | F128
  deriving DecidableEq

mutual
/-- Builtin layouts (`crate::layout::Builtin`). -/
inductive Builtin where
  | Int (w : IntWidth)
  | Float (w : FloatWidth)
  | Bool
  | Decimal
  | Str
  | Dict (key value : Layout)
  | Set (elem : Layout)
  | List (elem : Layout)

/-- Runtime value layouts (`crate::layout::Layout`).  A lambda set is modelled
by the layout of its runtime representation, which is all this pass ever asks
of it (`lambda_set.runtime_representation()`). -/
inductive Layout where
  | Builtin (b : Builtin)
  | Struct (fields : List Layout)
  | Union (u : UnionLayout)
  | LambdaSet (runtime_representation : Layout)
  | RecursivePointer

/-- Tag union layouts (`crate::layout::UnionLayout`). -/
inductive UnionLayout where
  | NonRecursive (tags : List (List Layout))
  | Recursive (tags : List (List Layout))
  | NonNullableUnwrapped (fields : List Layout)
  | NullableWrapped (other_tags : List (List Layout)) (nullable_id : Nat)
  | NullableUnwrapped (other_fields : List Layout) (nullable_id : Bool)
end

/-- IR symbols.  `ARG_1` and `ARG_2` are the formal parameters of a
specialized helper procedure (`Symbol::ARG_1`, `Symbol::ARG_2`); `sym n` is
the n-th fresh symbol minted from the identifier generator. -/
inductive Symbol where
  | ARG_1
  | ARG_2
  | sym (n : Nat)
  deriving DecidableEq

/-- A joinpoint id wraps a symbol (`JoinPointId(Symbol)`). -/
abbrev JoinPointId := Symbol

/-- The operation a helper is being generated for (`HelperOp`, from
`code_gen_help`); only the constructors used by `refcount.rs` are modelled. -/
inductive HelperOp where
  | Inc
  | Dec
  | DecRef (jp : JoinPointId)
  deriving DecidableEq

/-- Direct translation of `HelperOp::is_decref`. -/
def HelperOp.is_decref : HelperOp → Bool
  | .DecRef _ => true
  | _ => false

/-- The low-level runtime/IR primitives used by the emitted code. -/
inductive LowLevel where
  | PtrCast | And | NumSub | NumAdd | NumMul | NumGte | Eq | ListLen
  | RefCountInc | RefCountDec
  deriving DecidableEq

/-- IR expressions (`crate::ir::Expr`), restricted to the constructors this
pass emits.  `CallSpecialized layout op args` models the call expression
returned by the specialization oracle for a helper keyed by `(layout, op)`
(`CallType::ByName` in the real IR). -/
inductive Expr where
  | Literal (i : Int)
  | Call (op : LowLevel) (args : List Symbol)
  | CallSpecialized (layout : Layout) (op : HelperOp) (args : List Symbol)
  | Struct (fields : List Symbol)
  | StructAtIndex (index : Nat) (field_layouts : List Layout) (structSym : Symbol)
  | UnionAtIndex (structSym : Symbol) (union_layout : UnionLayout) (tag_id : Nat) (index : Nat)
  | GetTagId (structSym : Symbol) (union_layout : UnionLayout)

/-- Joinpoint parameters (`crate::ir::Param`). -/
structure Param where
  symbol : Symbol
  borrow : Bool
  layout : Layout

/-- IR statements (`crate::ir::Stmt`), restricted to the constructors this
pass emits.  `BranchInfo` is always `BranchInfo::None` in this file and is
dropped. -/
inductive Stmt where
  | Let (s : Symbol) (e : Expr) (l : Layout) (next : Stmt)
  | Switch (cond_symbol : Symbol) (cond_layout : Layout)
      (branches : List (Nat × Stmt)) (default_branch : Stmt) (ret_layout : Layout)
  | Ret (s : Symbol)
  | Join (id : JoinPointId) (parameters : List Param) (body : Stmt) (remainder : Stmt)
  | Jump (id : JoinPointId) (args : List Symbol)

instance : Inhabited Stmt := ⟨Stmt.Ret Symbol.ARG_1⟩

/-- `const LAYOUT_BOOL: Layout = Layout::Builtin(Builtin::Bool)`. -/
def LAYOUT_BOOL : Layout := .Builtin .Bool

/-- `const LAYOUT_UNIT: Layout = Layout::Struct(&[])`. -/
def LAYOUT_UNIT : Layout := .Struct []

/-- `const LAYOUT_PTR: Layout = Layout::RecursivePointer`. -/
def LAYOUT_PTR : Layout := .RecursivePointer

/-- `const LAYOUT_U32: Layout = Layout::Builtin(Builtin::Int(IntWidth::U32))`. -/
def LAYOUT_U32 : Layout := .Builtin (.Int .U32)

/-- Modelled from the spec: byte width of an integer. -/
def IntWidth.bytes : IntWidth → Nat
  | .U8 => 1 | .U16 => 2 | .U32 => 4 | .U64 => 8 | .U128 => 16
  | .I8 => 1 | .I16 => 2 | .I32 => 4 | .I64 => 8 | .I128 => 16

/-- Modelled from the spec: byte width of a float. -/
def FloatWidth.bytes : FloatWidth → Nat
  | .F32 => 4 | .F64 => 8 | .F128 => 16

mutual
/-- Modelled from the spec: layout query `is_refcounted()` (spec §6).  A
layout is refcounted when its runtime value owns a heap block with a
refcount slot: strings, lists, heap tag unions and recursive pointers
(spec §3); stack layouts (primitives, structs, non-recursive unions) are
not.  A closure set is treated transparently as its runtime representation
(spec §3, §9). -/
def Layout.is_refcounted : Layout → Bool
  | .Builtin .Str => true
  | .Builtin (.List _) => true
  | .Builtin _ => false
  | .Struct _ => false
  | .Union (.NonRecursive _) => false
  | .Union _ => true
  | .LambdaSet rep => rep.is_refcounted
  | .RecursivePointer => true
end

mutual
/-- Modelled from the spec: layout query `contains_refcounted()` (spec §6),
true when the layout transitively contains a refcounted component
(spec §4.7). -/
def Layout.contains_refcounted : Layout → Bool
  | .Builtin .Str => true
  | .Builtin (.List _) => true
  | .Builtin (.Dict _ _) => true
  | .Builtin (.Set _) => true
  | .Builtin _ => false
  | .Struct fields => fields_contain_refcounted fields
  | .Union (.NonRecursive tags) => tags_contain_refcounted tags
  | .Union _ => true
  | .LambdaSet rep => rep.contains_refcounted
  | .RecursivePointer => true

/-- Any field of the list transitively contains a refcounted component. -/
def fields_contain_refcounted : List Layout → Bool
  | [] => false
  | l :: ls => l.contains_refcounted || fields_contain_refcounted ls

/-- Any field of any variant transitively contains a refcounted component. -/
def tags_contain_refcounted : List (List Layout) → Bool
  | [] => false
  | t :: ts => fields_contain_refcounted t || tags_contain_refcounted ts
end

mutual
/-- Modelled from the spec: layout query `alignment_bytes(ptr_size)`
(spec §6).  Heap builtins align to the pointer size or the element
alignment, whichever is larger (spec §4.6); the exact numeric policy for
the other shapes is irrelevant to the theorems below, which never inspect
alignment values produced by this query. -/
def Layout.alignment_bytes (ptr_size : Nat) : Layout → Nat
  | .Builtin (.Int w) => w.bytes
  | .Builtin (.Float w) => w.bytes
  | .Builtin .Bool => 1
  | .Builtin .Decimal => 16
  | .Builtin .Str => ptr_size
  | .Builtin (.Dict _ _) => ptr_size
  | .Builtin (.Set _) => ptr_size
  | .Builtin (.List elem) => max ptr_size (elem.alignment_bytes ptr_size)
  | .Struct fields => fields_alignment ptr_size fields
  | .Union (.NonRecursive tags) => tags_alignment ptr_size tags
  | .Union _ => ptr_size
  | .LambdaSet rep => rep.alignment_bytes ptr_size
  | .RecursivePointer => ptr_size

/-- Maximum alignment over a field list (1 when empty). -/
def fields_alignment (ptr_size : Nat) : List Layout → Nat
  | [] => 1
  | l :: ls => max (l.alignment_bytes ptr_size) (fields_alignment ptr_size ls)

/-- Maximum alignment over the variants of a union. -/
def tags_alignment (ptr_size : Nat) : List (List Layout) → Nat
  | [] => 1
  | t :: ts => max (fields_alignment ptr_size t) (tags_alignment ptr_size ts)
end

mutual
/-- Modelled from the spec: layout query `stack_size(ptr_size)` (spec §6).
Strings and lists are a two-word `(pointer, length)` pair (spec §3); heap
unions are a pointer.  Padding is not modelled; none of the theorems below
inspect a stack size value. -/
def Layout.stack_size (ptr_size : Nat) : Layout → Nat
  | .Builtin (.Int w) => w.bytes
  | .Builtin (.Float w) => w.bytes
  | .Builtin .Bool => 1
  | .Builtin .Decimal => 16
  | .Builtin .Str => 2 * ptr_size
  | .Builtin (.Dict _ _) => 2 * ptr_size
  | .Builtin (.Set _) => 2 * ptr_size
  | .Builtin (.List _) => 2 * ptr_size
  | .Struct fields => fields_stack_size ptr_size fields
  | .Union (.NonRecursive tags) => tags_stack_size ptr_size tags + 1
  | .Union _ => ptr_size
  | .LambdaSet rep => rep.stack_size ptr_size
  | .RecursivePointer => ptr_size

/-- Sum of stack sizes over a field list. -/
def fields_stack_size (ptr_size : Nat) : List Layout → Nat
  | [] => 0
  | l :: ls => l.stack_size ptr_size + fields_stack_size ptr_size ls

/-- Maximum payload size over the variants of a union. -/
def tags_stack_size (ptr_size : Nat) : List (List Layout) → Nat
  | [] => 0
  | t :: ts => max (fields_stack_size ptr_size t) (tags_stack_size ptr_size ts)
end

/-- `matches!(union_layout, UnionLayout::NonRecursive(_))`. -/
def UnionLayout.is_non_recursive : UnionLayout → Bool
  | .NonRecursive _ => true
  | _ => false

/-- Modelled from the spec: layout query `tag_id_layout()` (spec §6), the
integer layout of the discriminant.  `TagIdIntType` is `u16` in the source,
so the discriminant is modelled as a 16-bit integer throughout; no theorem
below depends on the chosen width. -/
def UnionLayout.tag_id_layout : UnionLayout → Layout
  | _ => .Builtin (.Int .U16)

/-- Modelled from the spec: layout query `stores_tag_id_in_pointer(ptr_size)`
(spec §6), true when the union packs its discriminant into the low bits of
the pointer — "derivable from variant count and pointer size" (spec §4.8).
On a 64-bit target an 8-byte-aligned pointer has three free low bits. -/
def UnionLayout.stores_tag_id_in_pointer (ptr_size : Nat) : UnionLayout → Bool
  | .NonRecursive _ => false
  | .Recursive tags => ptr_size == 8 && tags.length ≤ 8
  | .NonNullableUnwrapped _ => false
  | .NullableWrapped other_tags _ => ptr_size == 8 && other_tags.length + 1 ≤ 8
  | .NullableUnwrapped _ _ => false

mutual
/-- Direct translation of `is_rc_implemented_yet` (refcount.rs:130). -/
def is_rc_implemented_yet : Layout → Bool
  | .Builtin (.Dict _ _) => false
  | .Builtin (.Set _) => false
  | .Builtin (.List elem) => is_rc_implemented_yet elem
  | .Builtin _ => true
  | .Struct fields => all_rc_implemented_yet fields
  | .Union (.NonRecursive tags) => all_tags_rc_implemented_yet tags
  | .Union (.Recursive tags) => all_tags_rc_implemented_yet tags
  | .Union (.NonNullableUnwrapped fields) => all_rc_implemented_yet fields
  | .Union (.NullableWrapped other_tags _) => all_tags_rc_implemented_yet other_tags
  | .Union (.NullableUnwrapped other_fields _) => all_rc_implemented_yet other_fields
  | .LambdaSet rep => is_rc_implemented_yet rep
  | .RecursivePointer => true

/-- `fields.iter().all(is_rc_implemented_yet)`. -/
def all_rc_implemented_yet : List Layout → Bool
  | [] => true
  | l :: ls => is_rc_implemented_yet l && all_rc_implemented_yet ls

/-- `tags.iter().all(|fields| fields.iter().all(is_rc_implemented_yet))`. -/
def all_tags_rc_implemented_yet : List (List Layout) → Bool
  | [] => true
  | t :: ts => all_rc_implemented_yet t && all_tags_rc_implemented_yet ts
end

/-- The fields of `CodeGenHelp` consulted by `refcount.rs`: the target
pointer size in bytes and the layout of a signed machine-word integer.  The
arena and the identifier generator are modelled outside this structure (the
latter as the `Nat` counter threaded through the emitters). -/
structure CodeGenHelp where
  ptr_size : Nat
  layout_isize : Layout

/-- The context threaded through emission (`Context`, from `code_gen_help`):
the current operation and the enclosing recursive union layout used to
resolve `RecursivePointer` children. -/
structure Context where
  op : HelperOp
  recursive_union : Option UnionLayout

/-- Modelled from the spec: the specialization oracle
`call_specialized_op(context, layout, args)` (spec §6), which registers that
a helper for `(layout, current-op)` is needed and returns an IR call
expression invoking it.  A `RecursivePointer` child is resolved by
substituting the enclosing union tracked in the context (spec §4.2, §9); at
the call sites in `refcount.rs` the result is unwrapped, so the oracle is
modelled as total, keeping a `RecursivePointer` key unresolved when no
enclosing union is in scope. -/
def call_specialized_op (ctx : Context) (layout : Layout) (args : List Symbol) : Expr :=
  match layout, ctx.recursive_union with
  | .RecursivePointer, some u => .CallSpecialized (.Union u) ctx.op args
  | l, _ => .CallSpecialized l ctx.op args

/-- Modelled from the spec: `let_lowlevel` (from `code_gen_help`), a one-line
IR builder binding the result of a low-level call. -/
def let_lowlevel (result_layout : Layout) (result : Symbol) (op : LowLevel)
    (args : List Symbol) (following : Stmt) : Stmt :=
  .Let result (.Call op args) result_layout following

/-- Direct translation of `refcount_args` (refcount.rs:174). -/
def refcount_args (ctx : Context) (structSym : Symbol) : List Symbol :=
  match ctx.op with
  | .Inc => [structSym, .ARG_2]
  | _ => [structSym]

/-- Direct translation of `rc_return_stmt` (refcount.rs:160). -/
def rc_return_stmt (ctx : Context) (n : Nat) : Stmt × Nat :=
  match ctx.op with
  | .DecRef jp_decref => (.Jump jp_decref [], n)
  | _ =>
      let unit := Symbol.sym n
      (.Let unit (.Struct []) LAYOUT_UNIT (.Ret unit), n + 1)

/-- Direct translation of `rc_ptr_from_data_ptr` (refcount.rs:187).  Note the
source creates the `mask`/`masked` symbols whether or not it uses them, so
five fresh symbols are consumed in either case. -/
def rc_ptr_from_data_ptr (root : CodeGenHelp) (structSym rc_ptr_sym : Symbol)
    (mask_lower_bits : Bool) (following : Stmt) (n : Nat) : Stmt × Nat :=
  let addr_sym := Symbol.sym n
  let addr_expr := Expr.Call .PtrCast [structSym]
  let mask_sym := Symbol.sym (n + 1)
  let mask_expr := Expr.Literal (-(root.ptr_size : Int))
  let masked_sym := Symbol.sym (n + 2)
  let and_expr := Expr.Call .And [addr_sym, mask_sym]
  let ptr_size_sym := Symbol.sym (n + 3)
  let ptr_size_expr := Expr.Literal (root.ptr_size : Int)
  let rc_addr_sym := Symbol.sym (n + 4)
  let sub_expr := Expr.Call .NumSub
    [if mask_lower_bits then masked_sym else addr_sym, ptr_size_sym]
  let cast_expr := Expr.Call .PtrCast [rc_addr_sym]
  let cast_stmt := Stmt.Let rc_ptr_sym cast_expr LAYOUT_PTR following
  let sub_stmt := Stmt.Let rc_addr_sym sub_expr root.layout_isize cast_stmt
  let ptr_size_stmt := Stmt.Let ptr_size_sym ptr_size_expr root.layout_isize sub_stmt
  if mask_lower_bits then
    (Stmt.Let addr_sym addr_expr root.layout_isize
      (Stmt.Let mask_sym mask_expr root.layout_isize
        (Stmt.Let masked_sym and_expr root.layout_isize ptr_size_stmt)), n + 5)
  else
    (Stmt.Let addr_sym addr_expr root.layout_isize ptr_size_stmt, n + 5)

/-- Direct translation of `modify_refcount` (refcount.rs:292).  The
`_ => unreachable!()` arm of the source cannot arise here because the
modelled `HelperOp` has exactly the constructors this file handles. -/
def modify_refcount (root : CodeGenHelp) (ctx : Context) (rc_ptr : Symbol)
    (alignment : Nat) (following : Stmt) (n : Nat) : Stmt × Nat :=
  let zig_call_result := Symbol.sym n
  match ctx.op with
  | .Inc =>
      (Stmt.Let zig_call_result (.Call .RefCountInc [rc_ptr, .ARG_2]) LAYOUT_UNIT following,
        n + 1)
  | _ =>
      let alignment_sym := Symbol.sym (n + 1)
      let zig_call_stmt :=
        Stmt.Let zig_call_result (.Call .RefCountDec [rc_ptr, alignment_sym]) LAYOUT_UNIT
          following
      (Stmt.Let alignment_sym (.Literal (alignment : Int)) LAYOUT_U32 zig_call_stmt, n + 2)

/-- Direct translation of `refcount_str` (refcount.rs:339). -/
def refcount_str (root : CodeGenHelp) (ctx : Context) (n : Nat) : Stmt × Nat :=
  let string := Symbol.ARG_1
  let layout_isize := root.layout_isize
  let len := Symbol.sym n
  let len_expr := Expr.StructAtIndex 1 [LAYOUT_PTR, layout_isize] string
  let zero := Symbol.sym (n + 1)
  let zero_expr := Expr.Literal 0
  let is_big_str := Symbol.sym (n + 2)
  let is_big_str_expr := Expr.Call .NumGte [len, zero]
  let elements := Symbol.sym (n + 3)
  let elements_expr := Expr.StructAtIndex 0 [LAYOUT_PTR, layout_isize] string
  let rc_ptr := Symbol.sym (n + 4)
  let alignment := root.ptr_size
  let ret_pair := rc_return_stmt ctx (n + 5)
  let mod_pair := modify_refcount root ctx rc_ptr alignment ret_pair.1 ret_pair.2
  let rcp_pair := rc_ptr_from_data_ptr root elements rc_ptr false mod_pair.1 mod_pair.2
  let then_branch := Stmt.Let elements elements_expr layout_isize rcp_pair.1
  let def_pair := rc_return_stmt ctx rcp_pair.2
  let if_stmt :=
    Stmt.Switch is_big_str LAYOUT_BOOL [(1, then_branch)] def_pair.1 LAYOUT_UNIT
  (Stmt.Let len len_expr layout_isize
    (Stmt.Let zero zero_expr layout_isize
      (Stmt.Let is_big_str is_big_str_expr LAYOUT_BOOL if_stmt)), def_pair.2)

/-- Direct translation of `refcount_list_elems` (refcount.rs:553). -/
def refcount_list_elems (root : CodeGenHelp) (ctx : Context) (elem_layout : Layout)
    (ret_layout : Layout) (box_union_layout : UnionLayout) (length elements : Symbol)
    (n : Nat) : Stmt × Nat :=
  let layout_isize := root.layout_isize
  let start := Symbol.sym n
  let size := Symbol.sym (n + 1)
  let size_expr := Expr.Literal (elem_layout.stack_size root.ptr_size : Int)
  let list_size := Symbol.sym (n + 2)
  let ending := Symbol.sym (n + 3)
  let elems_loop : JoinPointId := Symbol.sym (n + 4)
  let addr := Symbol.sym (n + 5)
  let param_addr : Param := ⟨addr, false, layout_isize⟩
  let box_ptr := Symbol.sym (n + 6)
  let box_layout := Layout.Union box_union_layout
  let elem := Symbol.sym (n + 7)
  let elem_expr := Expr.UnionAtIndex box_ptr box_union_layout 0 0
  let mod_elem_unit := Symbol.sym (n + 8)
  let mod_elem_args := refcount_args ctx elem
  let mod_elem_expr := call_specialized_op ctx elem_layout mod_elem_args
  let next_addr := Symbol.sym (n + 9)
  let is_end := Symbol.sym (n + 10)
  let ret_pair := rc_return_stmt ctx (n + 11)
  let if_end_of_list :=
    Stmt.Switch is_end LAYOUT_BOOL [(1, ret_pair.1)]
      (let_lowlevel box_layout box_ptr .PtrCast [addr]
        (Stmt.Let elem elem_expr elem_layout
          (Stmt.Let mod_elem_unit mod_elem_expr LAYOUT_UNIT
            (let_lowlevel layout_isize next_addr .NumAdd [addr, size]
              (Stmt.Jump elems_loop [next_addr])))))
      ret_layout
  let joinpoint_loop :=
    Stmt.Join elems_loop [param_addr]
      (let_lowlevel LAYOUT_BOOL is_end .NumGte [addr, ending] if_end_of_list)
      (Stmt.Jump elems_loop [start])
  (let_lowlevel layout_isize start .PtrCast [elements]
    (Stmt.Let size size_expr layout_isize
      (let_lowlevel layout_isize list_size .NumMul [length, size]
        (let_lowlevel layout_isize ending .NumAdd [start, list_size] joinpoint_loop))),
    ret_pair.2)

/-- Direct translation of `refcount_list` (refcount.rs:436). -/
def refcount_list (root : CodeGenHelp) (ctx : Context) (layout elem_layout : Layout)
    (structSym : Symbol) (n : Nat) : Stmt × Nat :=
  let layout_isize := root.layout_isize
  let box_union_layout := UnionLayout.NonNullableUnwrapped [elem_layout]
  let box_layout := Layout.Union box_union_layout
  let len := Symbol.sym n
  let zero := Symbol.sym (n + 1)
  let is_empty := Symbol.sym (n + 2)
  let is_empty_expr := Expr.Call .Eq [len, zero]
  let elements := Symbol.sym (n + 3)
  let elements_expr := Expr.StructAtIndex 0 [box_layout, layout_isize] structSym
  let rc_ptr := Symbol.sym (n + 4)
  let alignment := layout.alignment_bytes root.ptr_size
  let me_pair :=
    if elem_layout.is_refcounted && !ctx.op.is_decref then
      refcount_list_elems root ctx elem_layout LAYOUT_UNIT box_union_layout len elements
        (n + 5)
    else
      rc_return_stmt ctx (n + 5)
  let ml_pair := modify_refcount root ctx rc_ptr alignment me_pair.1 me_pair.2
  let rcp_pair := rc_ptr_from_data_ptr root elements rc_ptr false ml_pair.1 ml_pair.2
  let modify_list_and_elems := Stmt.Let elements elements_expr box_layout rcp_pair.1
  let er_pair := rc_return_stmt ctx rcp_pair.2
  let if_stmt :=
    Stmt.Switch is_empty LAYOUT_BOOL [(1, er_pair.1)] modify_list_and_elems LAYOUT_UNIT
  (let_lowlevel layout_isize len .ListLen [structSym]
    (Stmt.Let zero (.Literal 0) layout_isize
      (Stmt.Let is_empty is_empty_expr LAYOUT_BOOL if_stmt)), er_pair.2)

/-- The body of the `for (i, field_layout) in field_layouts.iter().enumerate().rev()`
loop of `refcount_struct` (refcount.rs:718), recursing over the reversed
enumerated field list while accumulating the statement and the symbol
counter exactly as the loop does. -/
def refcount_struct_fields (ctx : Context) (field_layouts : List Layout)
    (structSym : Symbol) : List (Nat × Layout) → Stmt → Nat → Stmt × Nat
  | [], stmt, n => (stmt, n)
  | (i, field_layout) :: rest, stmt, n =>
      if field_layout.contains_refcounted then
        let field_val := Symbol.sym n
        let field_val_expr := Expr.StructAtIndex i field_layouts structSym
        let mod_unit := Symbol.sym (n + 1)
        let mod_args := refcount_args ctx field_val
        let mod_expr := call_specialized_op ctx field_layout mod_args
        let stmt' := Stmt.Let field_val field_val_expr field_layout
          (Stmt.Let mod_unit mod_expr LAYOUT_UNIT stmt)
        refcount_struct_fields ctx field_layouts structSym rest stmt' (n + 2)
      else
        refcount_struct_fields ctx field_layouts structSym rest stmt n

/-- Direct translation of `refcount_struct` (refcount.rs:709). -/
def refcount_struct (root : CodeGenHelp) (ctx : Context) (field_layouts : List Layout)
    (structSym : Symbol) (n : Nat) : Stmt × Nat :=
  let rp := rc_return_stmt ctx n
  refcount_struct_fields ctx field_layouts structSym field_layouts.enum.reverse rp.1 rp.2

/-- The body of the reversed-enumeration loop of `refcount_tag_fields`
(refcount.rs:922), structured like `refcount_struct_fields`. -/
def refcount_tag_fields_loop (ctx : Context) (union_layout : UnionLayout)
    (structSym : Symbol) (tag_id : Nat) : List (Nat × Layout) → Stmt → Nat → Stmt × Nat
  | [], stmt, n => (stmt, n)
  | (i, field_layout) :: rest, stmt, n =>
      if field_layout.contains_refcounted then
        let field_val := Symbol.sym n
        let field_val_expr := Expr.UnionAtIndex structSym union_layout tag_id i
        let mod_unit := Symbol.sym (n + 1)
        let mod_args := refcount_args ctx field_val
        let mod_expr := call_specialized_op ctx field_layout mod_args
        let stmt' := Stmt.Let field_val field_val_expr field_layout
          (Stmt.Let mod_unit mod_expr LAYOUT_UNIT stmt)
        refcount_tag_fields_loop ctx union_layout structSym tag_id rest stmt' (n + 2)
      else
        refcount_tag_fields_loop ctx union_layout structSym tag_id rest stmt n

/-- Direct translation of `refcount_tag_fields` (refcount.rs:911). -/
def refcount_tag_fields (root : CodeGenHelp) (ctx : Context) (union_layout : UnionLayout)
    (field_layouts : List Layout) (structSym : Symbol) (tag_id : Nat) (n : Nat) :
    Stmt × Nat :=
  let rp := rc_return_stmt ctx n
  refcount_tag_fields_loop ctx union_layout structSym tag_id field_layouts.enum.reverse
    rp.1 rp.2

/-- The branch-building loop of `refcount_tag_union_help` (refcount.rs:829):
one branch per non-null variant, skipping the null id in the tag-id count. -/
def build_tag_branches (root : CodeGenHelp) (ctx : Context) (union_layout : UnionLayout)
    (null_id : Option Nat) (structSym : Symbol) :
    List (List Layout) → Nat → Nat → List (Nat × Stmt) × Nat
  | [], _, n => ([], n)
  | field_layouts :: rest, tag_id, n =>
      let tag_id' := match null_id with
        | some id => if tag_id = id then tag_id + 1 else tag_id
        | none => tag_id
      let fp :=
        refcount_tag_fields root ctx union_layout field_layouts structSym tag_id' n
      let bp :=
        build_tag_branches root ctx union_layout null_id structSym rest (tag_id' + 1) fp.2
      ((tag_id', fp.1) :: bp.1, bp.2)

/-- Direct translation of `refcount_tag_union_help` (refcount.rs:799).  The
source pops the last branch with `.pop().unwrap()` to use it as the switch
default; with no variants that unwrap panics, modelled as `none`. -/
def refcount_tag_union_help (root : CodeGenHelp) (ctx : Context)
    (union_layout : UnionLayout) (tag_layouts : List (List Layout))
    (null_id : Option Nat) (structSym : Symbol) (n : Nat) : Option (Stmt × Nat) :=
  let is_non_recursive := union_layout.is_non_recursive
  let tag_id_layout := union_layout.tag_id_layout
  let tag_id_sym := Symbol.sym n
  let modify_fields? : Option (Stmt × Nat) :=
    if ctx.op.is_decref then
      some (rc_return_stmt ctx (n + 1))
    else
      let bb :=
        build_tag_branches root ctx union_layout null_id structSym tag_layouts 0 (n + 1)
      match bb.1.getLast? with
      | none => none
      | some last =>
          some (Stmt.Switch tag_id_sym tag_id_layout bb.1.dropLast last.2
            LAYOUT_UNIT, bb.2)
  match modify_fields? with
  | none => none
  | some mf =>
      let rc_pair :=
        if is_non_recursive then mf
        else
          let rc_ptr := Symbol.sym mf.2
          let alignment := (Layout.Union union_layout).alignment_bytes root.ptr_size
          let ms :=
            modify_refcount root ctx rc_ptr alignment mf.1 (mf.2 + 1)
          let rp := rc_ptr_from_data_ptr root structSym rc_ptr
            (union_layout.stores_tag_id_in_pointer root.ptr_size) ms.1 ms.2
          match null_id with
          | some id =>
              let nr := rc_return_stmt ctx rp.2
              (Stmt.Switch tag_id_sym tag_id_layout [(id, nr.1)] rp.1
                LAYOUT_UNIT, nr.2)
          | none => rp
      some (Stmt.Let tag_id_sym (.GetTagId structSym union_layout) tag_id_layout
        rc_pair.1, rc_pair.2)

/-- Direct translation of `refcount_tag_union` (refcount.rs:748).  The Rust
mutates `ctx.recursive_union` and restores it on exit; with an immutable
context the update is passed down and the restore is implicit. -/
def refcount_tag_union (root : CodeGenHelp) (ctx : Context) (union_layout : UnionLayout)
    (structSym : Symbol) (n : Nat) : Option (Stmt × Nat) :=
  let ctx' := match union_layout with
    | .NonRecursive _ => ctx
    | _ => { ctx with recursive_union := some union_layout }
  match union_layout with
  | .NonRecursive tags =>
      refcount_tag_union_help root ctx' union_layout tags none structSym n
  | .Recursive tags =>
      refcount_tag_union_help root ctx' union_layout tags none structSym n
  | .NonNullableUnwrapped field_layouts =>
      refcount_tag_union_help root ctx' union_layout [field_layouts] none structSym n
  | .NullableWrapped tags nullable_id =>
      refcount_tag_union_help root ctx' union_layout tags (some nullable_id) structSym n
  | .NullableUnwrapped other_fields nullable_id =>
      refcount_tag_union_help root ctx' union_layout [other_fields]
        (some (if nullable_id then 1 else 0)) structSym n

/-- Direct translation of `refcount_generic` (refcount.rs:94).  The
`unreachable!` arm for primitives and the `todo!` arms for dictionaries,
sets and a top-level recursive pointer are modelled as `none`. -/
def refcount_generic (root : CodeGenHelp) (ctx : Context) (layout : Layout)
    (structSym : Symbol) (n : Nat) : Option (Stmt × Nat) :=
  match layout with
  | .Builtin (.Int _) => none
  | .Builtin (.Float _) => none
  | .Builtin .Bool => none
  | .Builtin .Decimal => none
  | .Builtin .Str => some (refcount_str root ctx n)
  | .Builtin (.List elem_layout) =>
      some (refcount_list root ctx (.Builtin (.List elem_layout)) elem_layout structSym n)
  | .Builtin (.Dict _ _) => none
  | .Builtin (.Set _) => none
  | .Struct field_layouts => some (refcount_struct root ctx field_layouts structSym n)
  | .Union union_layout => refcount_tag_union root ctx union_layout structSym n
  | .LambdaSet runtime_layout => refcount_generic root ctx runtime_layout structSym n
  | .RecursivePointer => none

/-- Refcounting directives (`crate::ir::ModifyRc`). -/
inductive ModifyRc where
  | Inc (structSym : Symbol) (amount : Nat)
  | Dec (structSym : Symbol)
  | DecRef (structSym : Symbol)

/-- Direct translation of `refcount_stmt` (refcount.rs:19).  The source
recurses on the `DecRef`/`Str` branch with `modify` unchanged after setting
`ctx.op = HelperOp::Dec`; the recursion is bounded here by a fuel argument,
with `none` on exhaustion, and `none` also models the `unreachable!` arm
reached when the inline `DecRef` branch finds an unexpected context
operation. -/
def refcount_stmt : Nat → CodeGenHelp → Context → Layout → ModifyRc → Stmt → Nat →
    Option (Stmt × Nat)
  | fuel, root, ctx, layout, modify, following, n =>
    match modify with
    | .Inc structSym amount =>
        let layout_isize := root.layout_isize
        let amount_sym := Symbol.sym n
        let amount_expr := Expr.Literal (amount : Int)
        let call_result_empty := Symbol.sym (n + 1)
        let call_expr := call_specialized_op ctx layout [structSym, amount_sym]
        some (Stmt.Let amount_sym amount_expr layout_isize
          (Stmt.Let call_result_empty call_expr LAYOUT_UNIT following), n + 2)
    | .Dec structSym =>
        let call_result_empty := Symbol.sym n
        let call_expr := call_specialized_op ctx layout [structSym]
        some (Stmt.Let call_result_empty call_expr LAYOUT_UNIT following, n + 1)
    | .DecRef structSym =>
        match layout with
        | .Builtin .Str =>
            match fuel with
            | 0 => none
            | fuel' + 1 =>
                refcount_stmt fuel' root { ctx with op := .Dec } layout modify following n
        | .Struct _ => some (following, n)
        | _ =>
            match ctx.op with
            | .DecRef jp_decref =>
                match refcount_generic root ctx layout structSym n with
                | none => none
                | some (rc_stmt, n1) =>
                    some (Stmt.Join jp_decref [] following rc_stmt, n1)
            | _ => none

mutual
/-- Does some node of the statement tree (the root included) satisfy `p`?
The continuation of a `Let`, the branches and default of a `Switch`, and the
body and remainder of a `Join` are the node's children. -/
def Stmt.anyNode (p : Stmt → Bool) : Stmt → Bool
  | .Let s e l next => p (.Let s e l next) || next.anyNode p
  | .Switch c cl bs d rl =>
      p (.Switch c cl bs d rl) || anyNodeBranches p bs || d.anyNode p
  | .Ret s => p (.Ret s)
  | .Join i ps b r => p (.Join i ps b r) || b.anyNode p || r.anyNode p
  | .Jump i a => p (.Jump i a)

/-- Does some node of some branch satisfy `p`? -/
def anyNodeBranches (p : Stmt → Bool) : List (Nat × Stmt) → Bool
  | [] => false
  | (_, s) :: rest => s.anyNode p || anyNodeBranches p rest
end

/-- The node is a joinpoint declaration. -/
def isJoinNode : Stmt → Bool
  | .Join _ _ _ _ => true
  | _ => false

/-- The node binds the result of a call to the runtime primitive
*RefCountInc* or *RefCountDec* — it reads and writes a refcount slot. -/
def touchesRcSlotNode : Stmt → Bool
  | .Let _ (.Call .RefCountInc _) _ _ => true
  | .Let _ (.Call .RefCountDec _) _ _ => true
  | _ => false

/-- The node binds the result of a bitwise-and — the tag-mask step. -/
def isAndMaskNode : Stmt → Bool
  | .Let _ (.Call .And _) _ _ => true
  | _ => false

/-- The node binds the result of a call obtained from the specialization
oracle — a child helper call. -/
def isSpecializedCallNode : Stmt → Bool
  | .Let _ (.CallSpecialized _ _ _) _ _ => true
  | _ => false

/-- The node is a child helper call whose argument list is not of the form
`[_, ARG_2]` — under `Inc` such a call would fail to pass the amount
parameter through. -/
def badIncCallNode : Stmt → Bool
  | .Let _ (.CallSpecialized _ _ args) _ _ =>
      match args with
      | [_, .ARG_2] => false
      | _ => true
  | _ => false

/-- The node binds a *RefCountDec* runtime call whose continuation contains a
child helper call: the outer decrement is an ancestor of a child decrement. -/
def rcDecAncestorNode : Stmt → Bool
  | .Let _ (.Call .RefCountDec _) _ next => next.anyNode isSpecializedCallNode
  | _ => false

/-- Some statement in the tree declares a joinpoint (the element-walk loop is
the only emitter of one inside a helper body). -/
def containsJoin (s : Stmt) : Bool := s.anyNode isJoinNode

/-- Some statement in the tree touches a refcount slot. -/
def touchesRcSlot (s : Stmt) : Bool := s.anyNode touchesRcSlotNode

/-- Some statement in the tree performs the tag-mask step. -/
def containsAndMask (s : Stmt) : Bool := s.anyNode isAndMaskNode

/-- Some statement in the tree calls a child helper. -/
def containsSpecializedCall (s : Stmt) : Bool := s.anyNode isSpecializedCallNode

/-- Some *RefCountDec* statement in the tree has a child helper call strictly
below it (in its continuation). -/
def rcDecAncestorOfChildCall (s : Stmt) : Bool := s.anyNode rcDecAncestorNode

/-- The statement is exactly the emitted return: either the `Inc`/`Dec` form
`let unit = {}; ret unit` or the `DecRef` form `jump J` with no arguments
(spec §4.9). -/
def isTerminalReturn : Stmt → Bool
  | .Let u (.Struct []) _ (.Ret u') => u == u'
  | .Jump _ [] => true
  | _ => false

mutual
/-- Written from the claim: the layout is a dictionary or a set, or a
composite transitively containing one, following the walk of the capability
query (C2, spec §6). -/
def contains_dict_or_set : Layout → Bool
  | .Builtin (.Dict _ _) => true
  | .Builtin (.Set _) => true
  | .Builtin (.List elem) => contains_dict_or_set elem
  | .Builtin _ => false
  | .Struct fields => fields_contain_dict_or_set fields
  | .Union (.NonRecursive tags) => tags_contain_dict_or_set tags
  | .Union (.Recursive tags) => tags_contain_dict_or_set tags
  | .Union (.NonNullableUnwrapped fields) => fields_contain_dict_or_set fields
  | .Union (.NullableWrapped other_tags _) => tags_contain_dict_or_set other_tags
  | .Union (.NullableUnwrapped other_fields _) => fields_contain_dict_or_set other_fields
  | .LambdaSet rep => contains_dict_or_set rep
  | .RecursivePointer => false

/-- Some field contains a dictionary or set. -/
def fields_contain_dict_or_set : List Layout → Bool
  | [] => false
  | l :: ls => contains_dict_or_set l || fields_contain_dict_or_set ls

/-- Some variant field contains a dictionary or set. -/
def tags_contain_dict_or_set : List (List Layout) → Bool
  | [] => false
  | t :: ts => fields_contain_dict_or_set t || tags_contain_dict_or_set ts
end

/-- Written from the claim (C7, spec §4.3): the emitted prefix casts the data
pointer to a signed machine-word integer `a`; exactly when masking is
requested it computes `a AND (−pointer_size)`; it binds the refcount address
as the (possibly masked) integer minus the pointer size; and it casts the
result back to a pointer-typed binding of `rc_ptr_sym`, continuing with
`following`. -/
def rc_ptr_spec (root : CodeGenHelp) (structSym rc_ptr_sym : Symbol)
    (mask_lower_bits : Bool) (following out : Stmt) : Prop :=
  ∃ a aMask aMasked pSize rcAddr,
    if mask_lower_bits then
      out = .Let a (.Call .PtrCast [structSym]) root.layout_isize
        (.Let aMask (.Literal (-(root.ptr_size : Int))) root.layout_isize
          (.Let aMasked (.Call .And [a, aMask]) root.layout_isize
            (.Let pSize (.Literal (root.ptr_size : Int)) root.layout_isize
              (.Let rcAddr (.Call .NumSub [aMasked, pSize]) root.layout_isize
                (.Let rc_ptr_sym (.Call .PtrCast [rcAddr]) LAYOUT_PTR following)))))
    else
      out = .Let a (.Call .PtrCast [structSym]) root.layout_isize
        (.Let pSize (.Literal (root.ptr_size : Int)) root.layout_isize
          (.Let rcAddr (.Call .NumSub [a, pSize]) root.layout_isize
            (.Let rc_ptr_sym (.Call .PtrCast [rcAddr]) LAYOUT_PTR following)))

/-- Written from the claim (C6, spec §4.4): the emitted statement invokes the
runtime refcount call for the current operation on `rc_ptr` — *RefCountInc*
with the amount argument for `Inc`, *RefCountDec* with the given alignment
bound as a literal otherwise — and continues with `tail`. -/
def modify_refcount_spec (ctx : Context) (rc_ptr : Symbol) (alignment : Nat)
    (tail out : Stmt) : Prop :=
  match ctx.op with
  | .Inc => ∃ z, out = .Let z (.Call .RefCountInc [rc_ptr, .ARG_2]) LAYOUT_UNIT tail
  | _ => ∃ a z,
      out = .Let a (.Literal (alignment : Int)) LAYOUT_U32
        (.Let z (.Call .RefCountDec [rc_ptr, a]) LAYOUT_UNIT tail)

/-- A 64-bit target: pointer size 8 bytes, machine-word layout `I64`. -/
def exRoot : CodeGenHelp := ⟨8, .Builtin (.Int .I64)⟩

/-- An emission context for a `Dec` helper. -/
def exCtxDec : Context := ⟨.Dec, none⟩

/-- An emission context for an `Inc` helper. -/
def exCtxInc : Context := ⟨.Inc, none⟩

/-- An emission context for an inlined `DecRef` whose joinpoint is symbol 100. -/
def exCtxDecRef : Context := ⟨.DecRef (.sym 100), none⟩

/-- The `Dec` helper body emitted for `List Str` on the 64-bit target. -/
def c1_list_pair : Stmt × Nat :=
  (refcount_generic exRoot exCtxDec (.Builtin (.List (.Builtin .Str))) .ARG_1 0).getD default

/-- The `Dec` helper body emitted for the recursive union with the single
variant `[Str]` on the 64-bit target. -/
def c1_union_pair : Stmt × Nat :=
  (refcount_generic exRoot exCtxDec (.Union (.Recursive [[.Builtin .Str]])) .ARG_1
    0).getD default

/-- A nullable-unwrapped union (`[Str]` payload, null id 1). -/
def c4_u : UnionLayout := .NullableUnwrapped [.Builtin .Str] true

/-- The `Dec` emission for `c4_u` (tag list and null id as `refcount_tag_union`
passes them). -/
def c4_pair : Stmt × Nat :=
  (refcount_tag_union_help exRoot exCtxDec c4_u [[.Builtin .Str]] (some 1) .ARG_1
    0).getD default

/-- The inlined `DecRef` emission for the recursive union with one `[Str]`
variant. -/
def c5_pair : Stmt × Nat :=
  (refcount_tag_union_help exRoot exCtxDecRef (.Recursive [[.Builtin .Str]])
    [[.Builtin .Str]] none .ARG_1 0).getD default

/-- The inlined lowering of a `DecRef` directive on a lambda set whose
runtime representation is the struct `[Str]`. -/
def c5_lambda_pair : Stmt × Nat :=
  (refcount_stmt 5 exRoot exCtxDecRef (.LambdaSet (.Struct [.Builtin .Str]))
    (.DecRef .ARG_1) (Stmt.Ret .ARG_1) 0).getD default

/-- A recursive union with one `[Str]` variant. -/
def c8_u : UnionLayout := .Recursive [[.Builtin .Str]]

/-- The `Dec` emission for `c8_u`. -/
def c8_pair : Stmt × Nat :=
  (refcount_tag_union_help exRoot exCtxDec c8_u [[.Builtin .Str]] none .ARG_1 0).getD default

mutual
/-- The capability query equals the negation of "transitively contains a
dictionary or set". -/
theorem is_rc_implemented_yet_eq (l : Layout) :
    is_rc_implemented_yet l = ! contains_dict_or_set l := by
  cases l with
  | Builtin b =>
      cases b with
      | Int w => rfl
      | Float w => rfl
      | Bool => rfl
      | Decimal => rfl
      | Str => rfl
      | Dict k v => rfl
      | Set e => rfl
      | List e =>
          simp only [is_rc_implemented_yet, contains_dict_or_set]
          exact is_rc_implemented_yet_eq e
  | Struct fields =>
      simp only [is_rc_implemented_yet, contains_dict_or_set]
      exact all_rc_implemented_yet_eq fields
  | Union u =>
      cases u with
      | NonRecursive tags =>
          simp only [is_rc_implemented_yet, contains_dict_or_set]
          exact all_tags_rc_implemented_yet_eq tags
      | Recursive tags =>
          simp only [is_rc_implemented_yet, contains_dict_or_set]
          exact all_tags_rc_implemented_yet_eq tags
      | NonNullableUnwrapped fields =>
          simp only [is_rc_implemented_yet, contains_dict_or_set]
          exact all_rc_implemented_yet_eq fields
      | NullableWrapped other_tags nullable_id =>
          simp only [is_rc_implemented_yet, contains_dict_or_set]
          exact all_tags_rc_implemented_yet_eq other_tags
      | NullableUnwrapped other_fields nullable_id =>
          simp only [is_rc_implemented_yet, contains_dict_or_set]
          exact all_rc_implemented_yet_eq other_fields
  | LambdaSet rep =>
      simp only [is_rc_implemented_yet, contains_dict_or_set]
      exact is_rc_implemented_yet_eq rep
  | RecursivePointer => rfl

/-- List version of `is_rc_implemented_yet_eq`. -/
theorem all_rc_implemented_yet_eq (ls : List Layout) :
    all_rc_implemented_yet ls = ! fields_contain_dict_or_set ls := by
  cases ls with
  | nil => rfl
  | cons l ls =>
      simp only [all_rc_implemented_yet, fields_contain_dict_or_set,
        is_rc_implemented_yet_eq l, all_rc_implemented_yet_eq ls, Bool.not_or]

/-- Variant-list version of `is_rc_implemented_yet_eq`. -/
theorem all_tags_rc_implemented_yet_eq (ts : List (List Layout)) :
    all_tags_rc_implemented_yet ts = ! tags_contain_dict_or_set ts := by
  cases ts with
  | nil => rfl
  | cons t ts =>
      simp only [all_tags_rc_implemented_yet, tags_contain_dict_or_set,
        all_rc_implemented_yet_eq t, all_tags_rc_implemented_yet_eq ts, Bool.not_or]
end

/-- C2 counterexample: the claim says `is_rc_implemented_yet` returns false
for a `RecursivePointer` layout at the top level, but the code returns true
(refcount.rs:156). -/
theorem c2_counterexample : is_rc_implemented_yet Layout.RecursivePointer = true := rfl

/-- C2 (amended): `is_rc_implemented_yet` returns false exactly for
dictionary layouts, set layouts, and composite layouts transitively
containing one of those; a `RecursivePointer` layout at the top level is
reported implemented. -/
theorem c2_amended :
    (∀ l : Layout, is_rc_implemented_yet l = ! contains_dict_or_set l) ∧
      is_rc_implemented_yet Layout.RecursivePointer = true :=
  ⟨is_rc_implemented_yet_eq, rfl⟩

/-- C3 is contradicted by the code: lowering a `DecRef` directive for a
string layout never terminates.  The `DecRef`/`Str` arm sets
`ctx.op = HelperOp::Dec` but recurses with `modify` unchanged
(refcount.rs:66-68), re-entering the same arm for every amount of fuel,
whereas the claim (and the comment in the source) intend a rewrite to the
`Dec` lowering. -/
theorem c3_decref_str_diverges (root : CodeGenHelp) (ctx : Context) (x : Symbol)
    (following : Stmt) (n fuel : Nat) :
    refcount_stmt fuel root ctx (.Builtin .Str) (.DecRef x) following n = none := by
  induction fuel generalizing ctx with
  | zero => rfl
  | succ fuel ih => exact ih _

/-- C1 is violated by the code: in the `Dec` helper bodies emitted for
`List Str` and for a recursive union, the statement issuing *RefCountDec* on
the outer allocation has the child helper calls in its continuation — the
outer runtime call is the prefix and an ancestor of every child decrement,
not a descendant of the field/element walk. -/
theorem c1_outer_dec_is_ancestor :
    refcount_generic exRoot exCtxDec (.Builtin (.List (.Builtin .Str))) .ARG_1 0 =
        some c1_list_pair ∧
      rcDecAncestorOfChildCall c1_list_pair.1 = true ∧
      refcount_generic exRoot exCtxDec (.Union (.Recursive [[.Builtin .Str]])) .ARG_1 0 =
        some c1_union_pair ∧
      rcDecAncestorOfChildCall c1_union_pair.1 = true :=
  ⟨rfl, rfl, rfl, rfl⟩

/-- The oracle always returns a specialized call carrying the context
operation and the given argument list. -/
theorem call_specialized_op_eq (ctx : Context) (l : Layout) (args : List Symbol) :
    ∃ l', call_specialized_op ctx l args = .CallSpecialized l' ctx.op args := by
  unfold call_specialized_op
  cases l <;> cases h : ctx.recursive_union <;> exact ⟨_, rfl⟩

/-- An oracle call never touches a refcount slot by itself. -/
theorem touchesRcSlotNode_call_spec (s : Symbol) (ctx : Context) (l : Layout)
    (args : List Symbol) (ly : Layout) (next : Stmt) :
    touchesRcSlotNode (.Let s (call_specialized_op ctx l args) ly next) = false := by
  obtain ⟨l', h⟩ := call_specialized_op_eq ctx l args
  rw [h]
  rfl

/-- An oracle call is not the tag-mask step. -/
theorem isAndMaskNode_call_spec (s : Symbol) (ctx : Context) (l : Layout)
    (args : List Symbol) (ly : Layout) (next : Stmt) :
    isAndMaskNode (.Let s (call_specialized_op ctx l args) ly next) = false := by
  obtain ⟨l', h⟩ := call_specialized_op_eq ctx l args
  rw [h]
  rfl

/-- An oracle call is a child helper call. -/
theorem isSpecializedCallNode_call_spec (s : Symbol) (ctx : Context) (l : Layout)
    (args : List Symbol) (ly : Layout) (next : Stmt) :
    isSpecializedCallNode (.Let s (call_specialized_op ctx l args) ly next) = true := by
  obtain ⟨l', h⟩ := call_specialized_op_eq ctx l args
  rw [h]
  rfl

/-- An oracle call passes the amount through exactly when its argument list
is `[_, ARG_2]`. -/
theorem badIncCallNode_call_spec (s : Symbol) (ctx : Context) (l : Layout)
    (args : List Symbol) (ly : Layout) (next : Stmt) :
    badIncCallNode (.Let s (call_specialized_op ctx l args) ly next) =
      (match args with | [_, .ARG_2] => false | _ => true) := by
  obtain ⟨l', h⟩ := call_specialized_op_eq ctx l args
  rw [h]
  rfl

/-- The emitted return/jump is recognised by `isTerminalReturn`. -/
theorem isTerminalReturn_rc_return (ctx : Context) (n : Nat) :
    isTerminalReturn (rc_return_stmt ctx n).1 = true := by
  cases hop : ctx.op <;> simp [rc_return_stmt, hop, isTerminalReturn]

/-- The emitted return/jump contains no node satisfying a predicate that is
false on the `let unit = {}; ret unit` sequence and on an argument-free
jump. -/
theorem anyNode_rc_return (p : Stmt → Bool) (ctx : Context) (n : Nat)
    (h1 : ∀ s s', p (Stmt.Let s (.Struct []) LAYOUT_UNIT (.Ret s')) = false)
    (h2 : ∀ s, p (Stmt.Ret s) = false)
    (h3 : ∀ jp, p (Stmt.Jump jp []) = false) :
    (rc_return_stmt ctx n).1.anyNode p = false := by
  cases hop : ctx.op <;> simp [rc_return_stmt, hop, Stmt.anyNode, h1, h2, h3]

/-- The refcount-slot address builder satisfies the claim-level description
of §4.3 for both values of the mask flag. -/
theorem rc_ptr_from_data_ptr_spec (root : CodeGenHelp) (structSym rc_ptr_sym : Symbol)
    (mask_lower_bits : Bool) (following : Stmt) (n : Nat) :
    rc_ptr_spec root structSym rc_ptr_sym mask_lower_bits following
      (rc_ptr_from_data_ptr root structSym rc_ptr_sym mask_lower_bits following n).1 := by
  cases mask_lower_bits with
  | false =>
      exact ⟨.sym n, .sym (n + 1), .sym (n + 2), .sym (n + 3), .sym (n + 4), rfl⟩
  | true =>
      exact ⟨.sym n, .sym (n + 1), .sym (n + 2), .sym (n + 3), .sym (n + 4), rfl⟩

/-- The runtime-call builder satisfies the claim-level description of §4.4. -/
theorem modify_refcount_spec_holds (root : CodeGenHelp) (ctx : Context) (rc_ptr : Symbol)
    (alignment : Nat) (following : Stmt) (n : Nat) :
    modify_refcount_spec ctx rc_ptr alignment following
      (modify_refcount root ctx rc_ptr alignment following n).1 := by
  cases hop : ctx.op with
  | Inc =>
      simp only [modify_refcount_spec, hop]
      exact ⟨.sym n, by simp [modify_refcount, hop]⟩
  | Dec =>
      simp only [modify_refcount_spec, hop]
      exact ⟨.sym (n + 1), .sym n, by simp [modify_refcount, hop]⟩
  | DecRef jp =>
      simp only [modify_refcount_spec, hop]
      exact ⟨.sym (n + 1), .sym n, by simp [modify_refcount, hop]⟩

/-- C7: the refcount-slot address builder casts the data pointer to a signed
machine-word integer `a`, computes `a AND (−pointer_size)` exactly when
masking is requested, binds the refcount address as the (masked or raw)
integer minus the pointer size, and casts the result back to a pointer-typed
binding. -/
theorem c7_rc_ptr_structure (root : CodeGenHelp) (structSym rc_ptr_sym : Symbol)
    (mask_lower_bits : Bool) (following : Stmt) (n : Nat) :
    rc_ptr_spec root structSym rc_ptr_sym mask_lower_bits following
      (rc_ptr_from_data_ptr root structSym rc_ptr_sym mask_lower_bits following n).1 :=
  rc_ptr_from_data_ptr_spec root structSym rc_ptr_sym mask_lower_bits following n

/-- C6: the string refcounter extracts the elements pointer at field index 0
and the length at field index 1, tests `length ≥ 0`; the true branch (big
string) computes the refcount slot from the elements pointer with no tag
mask and invokes the runtime refcount call with alignment equal to the
pointer size; the false branch (small string) is the return statement. -/
theorem c6_refcount_str_structure (root : CodeGenHelp) (ctx : Context) (n : Nat) :
    ∃ len zero big elems rcPtr slotPath modRc ret1 defaultB,
      (refcount_str root ctx n).1 =
        .Let len (.StructAtIndex 1 [LAYOUT_PTR, root.layout_isize] .ARG_1)
          root.layout_isize
          (.Let zero (.Literal 0) root.layout_isize
            (.Let big (.Call .NumGte [len, zero]) LAYOUT_BOOL
              (.Switch big LAYOUT_BOOL
                [(1, .Let elems (.StructAtIndex 0 [LAYOUT_PTR, root.layout_isize] .ARG_1)
                  root.layout_isize slotPath)]
                defaultB LAYOUT_UNIT))) ∧
      rc_ptr_spec root elems rcPtr false modRc slotPath ∧
      modify_refcount_spec ctx rcPtr root.ptr_size ret1 modRc ∧
      isTerminalReturn ret1 = true ∧
      isTerminalReturn defaultB = true := by
  refine ⟨.sym n, .sym (n + 1), .sym (n + 2), .sym (n + 3), .sym (n + 4),
    (rc_ptr_from_data_ptr root (.sym (n + 3)) (.sym (n + 4)) false
      (modify_refcount root ctx (.sym (n + 4)) root.ptr_size
        (rc_return_stmt ctx (n + 5)).1 (rc_return_stmt ctx (n + 5)).2).1
      (modify_refcount root ctx (.sym (n + 4)) root.ptr_size
        (rc_return_stmt ctx (n + 5)).1 (rc_return_stmt ctx (n + 5)).2).2).1,
    (modify_refcount root ctx (.sym (n + 4)) root.ptr_size
      (rc_return_stmt ctx (n + 5)).1 (rc_return_stmt ctx (n + 5)).2).1,
    (rc_return_stmt ctx (n + 5)).1,
    (rc_return_stmt ctx
      (rc_ptr_from_data_ptr root (.sym (n + 3)) (.sym (n + 4)) false
        (modify_refcount root ctx (.sym (n + 4)) root.ptr_size
          (rc_return_stmt ctx (n + 5)).1 (rc_return_stmt ctx (n + 5)).2).1
        (modify_refcount root ctx (.sym (n + 4)) root.ptr_size
          (rc_return_stmt ctx (n + 5)).1 (rc_return_stmt ctx (n + 5)).2).2).2).1,
    rfl,
    rc_ptr_from_data_ptr_spec root (.sym (n + 3)) (.sym (n + 4)) false _ _,
    modify_refcount_spec_holds root ctx (.sym (n + 4)) root.ptr_size _ _,
    isTerminalReturn_rc_return ctx (n + 5),
    isTerminalReturn_rc_return ctx _⟩

/-- The emitted return/jump never touches a refcount slot. -/
theorem touchesRcSlot_rc_return (ctx : Context) (n : Nat) :
    touchesRcSlot (rc_return_stmt ctx n).1 = false :=
  anyNode_rc_return touchesRcSlotNode ctx n (fun _ _ => rfl) (fun _ => rfl) (fun _ => rfl)

/-- C4: no emitted statement path touches a refcount slot when the runtime
encoding has no heap block: the string helper's false branch (negative
length) is the bare return; the list helper's branch for length zero is the
bare return; and for a union with a null alternative the refcount-slot path
sits under a guard switch whose branch for the null tag id is the bare
return. -/
theorem c4_no_slot_touch_on_sentinels :
    (∀ (root : CodeGenHelp) (ctx : Context) (n : Nat),
      ∃ len zero big thenB defaultB,
        (refcount_str root ctx n).1 =
          .Let len (.StructAtIndex 1 [LAYOUT_PTR, root.layout_isize] .ARG_1)
            root.layout_isize
            (.Let zero (.Literal 0) root.layout_isize
              (.Let big (.Call .NumGte [len, zero]) LAYOUT_BOOL
                (.Switch big LAYOUT_BOOL [(1, thenB)] defaultB LAYOUT_UNIT))) ∧
          touchesRcSlot defaultB = false ∧ isTerminalReturn defaultB = true) ∧
    (∀ (root : CodeGenHelp) (ctx : Context) (layout elem_layout : Layout)
        (st : Symbol) (n : Nat),
      ∃ len zero isE emptyB defaultB,
        (refcount_list root ctx layout elem_layout st n).1 =
          .Let len (.Call .ListLen [st]) root.layout_isize
            (.Let zero (.Literal 0) root.layout_isize
              (.Let isE (.Call .Eq [len, zero]) LAYOUT_BOOL
                (.Switch isE LAYOUT_BOOL [(1, emptyB)] defaultB LAYOUT_UNIT))) ∧
          touchesRcSlot emptyB = false ∧ isTerminalReturn emptyB = true) ∧
    (∀ (root : CodeGenHelp) (ctx : Context) (u : UnionLayout)
        (tags : List (List Layout)) (id : Nat) (st : Symbol) (n : Nat)
        (s : Stmt) (m : Nat),
      u.is_non_recursive = false →
      refcount_tag_union_help root ctx u tags (some id) st n = some (s, m) →
      ∃ tagSym nullB defB,
        s = .Let tagSym (.GetTagId st u) u.tag_id_layout
          (.Switch tagSym u.tag_id_layout [(id, nullB)] defB LAYOUT_UNIT) ∧
        touchesRcSlot nullB = false ∧ isTerminalReturn nullB = true) := by
  refine ⟨?_, ?_, ?_⟩
  · intro root ctx n
    exact ⟨.sym n, .sym (n + 1), .sym (n + 2), _, _, rfl,
      touchesRcSlot_rc_return ctx _, isTerminalReturn_rc_return ctx _⟩
  · intro root ctx layout elem_layout st n
    exact ⟨.sym n, .sym (n + 1), .sym (n + 2), _, _, rfl,
      touchesRcSlot_rc_return ctx _, isTerminalReturn_rc_return ctx _⟩
  · intro root ctx u tags id st n s m hnr h
    simp only [refcount_tag_union_help, hnr] at h
    cases hdec : ctx.op.is_decref with
    | true =>
        simp only [hdec, if_true] at h
        simp only [Option.some.injEq, Prod.mk.injEq] at h
        obtain ⟨hs, hm⟩ := h
        subst hs
        exact ⟨.sym n, _, _, rfl, touchesRcSlot_rc_return ctx _,
          isTerminalReturn_rc_return ctx _⟩
    | false =>
        simp only [hdec, if_false, Bool.false_eq_true] at h
        cases hl : (build_tag_branches root ctx u (some id) st tags 0 (n + 1)).1.getLast? with
        | none =>
            rw [hl] at h
            simp at h
        | some last =>
            rw [hl] at h
            simp only [Option.some.injEq, Prod.mk.injEq] at h
            obtain ⟨hs, hm⟩ := h
            subst hs
            exact ⟨.sym n, _, _, rfl, touchesRcSlot_rc_return ctx _,
              isTerminalReturn_rc_return ctx _⟩

/-- C4 witness: the `Dec` emission for the nullable-unwrapped union `c4_u`
satisfies the null-guard clause of `c4_no_slot_touch_on_sentinels` at a
concrete input. -/
theorem c4_witness :
    c4_u.is_non_recursive = false ∧
      refcount_tag_union_help exRoot exCtxDec c4_u [[.Builtin .Str]] (some 1) .ARG_1 0 =
        some (c4_pair.1, c4_pair.2) ∧
      ∃ tagSym nullB defB,
        c4_pair.1 = .Let tagSym (.GetTagId .ARG_1 c4_u) c4_u.tag_id_layout
          (.Switch tagSym c4_u.tag_id_layout [(1, nullB)] defB LAYOUT_UNIT) ∧
        touchesRcSlot nullB = false ∧ isTerminalReturn nullB = true :=
  ⟨rfl, rfl, c4_no_slot_touch_on_sentinels.2.2 exRoot exCtxDec c4_u [[.Builtin .Str]] 1
    .ARG_1 0 c4_pair.1 c4_pair.2 rfl rfl⟩

/-- The emitted return/jump requests nothing from the oracle. -/
theorem containsSpecializedCall_rc_return (ctx : Context) (n : Nat) :
    containsSpecializedCall (rc_return_stmt ctx n).1 = false :=
  anyNode_rc_return isSpecializedCallNode ctx n (fun _ _ => rfl) (fun _ => rfl)
    (fun _ => rfl)

/-- If no field of the list transitively contains a refcounted component,
neither does any layout in it. -/
theorem not_contains_of_fields_false (ls : List Layout)
    (h : fields_contain_refcounted ls = false) :
    ∀ l ∈ ls, l.contains_refcounted = false := by
  induction ls with
  | nil => intro l hl; cases hl
  | cons a as ih =>
      simp only [fields_contain_refcounted, Bool.or_eq_false_iff] at h
      intro l hl
      rcases List.mem_cons.mp hl with rfl | hl
      · exact h.1
      · exact ih h.2 l hl

/-- Pair membership in `enumFrom` projects to list membership. -/
theorem snd_mem_of_mem_enumFrom (ls : List Layout) :
    ∀ (k : Nat) (p : Nat × Layout), p ∈ ls.enumFrom k → p.2 ∈ ls := by
  induction ls with
  | nil => intro k p hp; cases hp
  | cons a as ih =>
      intro k p hp
      simp only [List.enumFrom] at hp
      rcases List.mem_cons.mp hp with rfl | hp
      · exact List.mem_cons_self _ _
      · exact List.mem_cons_of_mem _ (ih (k + 1) p hp)

/-- The struct field walk emits nothing for fields without refcounted
components. -/
theorem refcount_struct_fields_skip (ctx : Context) (fls : List Layout) (st : Symbol) :
    ∀ (iter : List (Nat × Layout)) (stmt : Stmt) (n : Nat),
      (∀ p ∈ iter, (p.2 : Layout).contains_refcounted = false) →
      refcount_struct_fields ctx fls st iter stmt n = (stmt, n) := by
  intro iter
  induction iter with
  | nil => intro stmt n h; rfl
  | cons p rest ih =>
      intro stmt n h
      obtain ⟨i, fl⟩ := p
      have hf : fl.contains_refcounted = false := h (i, fl) (List.mem_cons_self _ _)
      simp only [refcount_struct_fields, hf, Bool.false_eq_true, if_false]
      exact ih stmt n (fun q hq => h q (List.mem_cons_of_mem _ hq))

/-- The variant field walk emits nothing for fields without refcounted
components. -/
theorem refcount_tag_fields_loop_skip (ctx : Context) (u : UnionLayout) (st : Symbol)
    (tag_id : Nat) :
    ∀ (iter : List (Nat × Layout)) (stmt : Stmt) (n : Nat),
      (∀ p ∈ iter, (p.2 : Layout).contains_refcounted = false) →
      refcount_tag_fields_loop ctx u st tag_id iter stmt n = (stmt, n) := by
  intro iter
  induction iter with
  | nil => intro stmt n h; rfl
  | cons p rest ih =>
      intro stmt n h
      obtain ⟨i, fl⟩ := p
      have hf : fl.contains_refcounted = false := h (i, fl) (List.mem_cons_self _ _)
      simp only [refcount_tag_fields_loop, hf, Bool.false_eq_true, if_false]
      exact ih stmt n (fun q hq => h q (List.mem_cons_of_mem _ hq))

/-- C10: for a struct layout (or a union variant's field list) in which no
field transitively contains a refcounted component, the emitted field-walk
body is exactly the return/jump statement: no field is extracted and no
helper call is requested from the specialization oracle. -/
theorem c10_bare_return_when_no_refcounted_fields (root : CodeGenHelp) (ctx : Context)
    (fls : List Layout) (st : Symbol) (u : UnionLayout) (tag_id n : Nat)
    (h : fields_contain_refcounted fls = false) :
    refcount_struct root ctx fls st n = rc_return_stmt ctx n ∧
      refcount_tag_fields root ctx u fls st tag_id n = rc_return_stmt ctx n ∧
      containsSpecializedCall (refcount_struct root ctx fls st n).1 = false := by
  have hmem : ∀ p ∈ fls.enum.reverse, (p.2 : Layout).contains_refcounted = false := by
    intro p hp
    exact not_contains_of_fields_false fls h p.2
      (snd_mem_of_mem_enumFrom fls 0 p (List.mem_reverse.mp hp))
  have h1 : refcount_struct root ctx fls st n = rc_return_stmt ctx n := by
    show refcount_struct_fields ctx fls st fls.enum.reverse
      (rc_return_stmt ctx n).1 (rc_return_stmt ctx n).2 = rc_return_stmt ctx n
    rw [refcount_struct_fields_skip ctx fls st _ _ _ hmem]
  have h2 : refcount_tag_fields root ctx u fls st tag_id n = rc_return_stmt ctx n := by
    show refcount_tag_fields_loop ctx u st tag_id fls.enum.reverse
      (rc_return_stmt ctx n).1 (rc_return_stmt ctx n).2 = rc_return_stmt ctx n
    rw [refcount_tag_fields_loop_skip ctx u st tag_id _ _ _ hmem]
  refine ⟨h1, h2, ?_⟩
  rw [h1]
  exact containsSpecializedCall_rc_return ctx n

/-- C10 witness: a one-field struct of a machine integer emits the bare
return under `Dec`. -/
theorem c10_witness :
    fields_contain_refcounted [Layout.Builtin (.Int .I64)] = false ∧
      refcount_struct exRoot exCtxDec [.Builtin (.Int .I64)] .ARG_1 0 =
        rc_return_stmt exCtxDec 0 :=
  ⟨rfl, (c10_bare_return_when_no_refcounted_fields exRoot exCtxDec
    [.Builtin (.Int .I64)] .ARG_1 (.NonRecursive []) 0 0 rfl).1⟩

/-- Under `Inc` the helper argument builder appends the amount parameter. -/
theorem refcount_args_inc (ctx : Context) (h : ctx.op = .Inc) (s : Symbol) :
    refcount_args ctx s = [s, .ARG_2] := by
  simp [refcount_args, h]

/-- The emitted return/jump contains no ill-formed amount-passing call. -/
theorem badInc_rc_return (ctx : Context) (n : Nat) :
    (rc_return_stmt ctx n).1.anyNode badIncCallNode = false :=
  anyNode_rc_return badIncCallNode ctx n (fun _ _ => rfl) (fun _ => rfl) (fun _ => rfl)

/-- Under `Inc`, the struct field walk only adds child calls of the form
`helper(field, ARG_2)`. -/
theorem refcount_struct_fields_badInc (ctx : Context) (h : ctx.op = .Inc)
    (fls : List Layout) (st : Symbol) :
    ∀ (iter : List (Nat × Layout)) (stmt : Stmt) (n : Nat),
      stmt.anyNode badIncCallNode = false →
      (refcount_struct_fields ctx fls st iter stmt n).1.anyNode badIncCallNode = false := by
  intro iter
  induction iter with
  | nil => intro stmt n hs; exact hs
  | cons p rest ih =>
      intro stmt n hs
      obtain ⟨i, fl⟩ := p
      cases hf : fl.contains_refcounted with
      | false =>
          simp only [refcount_struct_fields, hf, Bool.false_eq_true, if_false]
          exact ih stmt n hs
      | true =>
          simp only [refcount_struct_fields, hf, if_true]
          apply ih
          simp only [Stmt.anyNode, refcount_args_inc ctx h]
          rw [badIncCallNode_call_spec]
          simp [hs, badIncCallNode]

/-- Under `Inc`, the variant field walk only adds child calls of the form
`helper(field, ARG_2)`. -/
theorem refcount_tag_fields_loop_badInc (ctx : Context) (h : ctx.op = .Inc)
    (u : UnionLayout) (st : Symbol) (tid : Nat) :
    ∀ (iter : List (Nat × Layout)) (stmt : Stmt) (n : Nat),
      stmt.anyNode badIncCallNode = false →
      (refcount_tag_fields_loop ctx u st tid iter stmt n).1.anyNode badIncCallNode =
        false := by
  intro iter
  induction iter with
  | nil => intro stmt n hs; exact hs
  | cons p rest ih =>
      intro stmt n hs
      obtain ⟨i, fl⟩ := p
      cases hf : fl.contains_refcounted with
      | false =>
          simp only [refcount_tag_fields_loop, hf, Bool.false_eq_true, if_false]
          exact ih stmt n hs
      | true =>
          simp only [refcount_tag_fields_loop, hf, if_true]
          apply ih
          simp only [Stmt.anyNode, refcount_args_inc ctx h]
          rw [badIncCallNode_call_spec]
          simp [hs, badIncCallNode]

/-- C9: under the `Inc` operation, every child helper call emitted for a
list element, struct field, or union variant field passes the enclosing
helper's amount parameter (`ARG_2`, the second formal argument) unchanged as
the child's second argument: the argument builder yields `[value, ARG_2]`,
and no emitted statement contains a specialized call whose argument list is
not of that form. -/
theorem c9_inc_amount_propagates (root : CodeGenHelp) (ctx : Context)
    (h : ctx.op = .Inc) :
    (∀ s, refcount_args ctx s = [s, .ARG_2]) ∧
    (∀ (el rl : Layout) (bul : UnionLayout) (len elems : Symbol) (n : Nat),
      (refcount_list_elems root ctx el rl bul len elems n).1.anyNode badIncCallNode =
        false) ∧
    (∀ (fls : List Layout) (st : Symbol) (n : Nat),
      (refcount_struct root ctx fls st n).1.anyNode badIncCallNode = false) ∧
    (∀ (u : UnionLayout) (fls : List Layout) (st : Symbol) (tid n : Nat),
      (refcount_tag_fields root ctx u fls st tid n).1.anyNode badIncCallNode = false) := by
  refine ⟨refcount_args_inc ctx h, ?_, ?_, ?_⟩
  · intro el rl bul len elems n
    obtain ⟨op, ru⟩ := ctx
    simp only at h
    subst h
    simp only [refcount_list_elems, let_lowlevel, rc_return_stmt, refcount_args,
      Stmt.anyNode, anyNodeBranches]
    rw [badIncCallNode_call_spec]
    simp [badIncCallNode]
  · intro fls st n
    exact refcount_struct_fields_badInc ctx h fls st _ _ _ (badInc_rc_return ctx n)
  · intro u fls st tid n
    exact refcount_tag_fields_loop_badInc ctx h u st tid _ _ _ (badInc_rc_return ctx n)

/-- C9 witness: an `Inc` helper for a one-string struct at concrete inputs. -/
theorem c9_witness :
    exCtxInc.op = HelperOp.Inc ∧
      (refcount_struct exRoot exCtxInc [.Builtin .Str] .ARG_1 0).1.anyNode
        badIncCallNode = false :=
  ⟨rfl, (c9_inc_amount_propagates exRoot exCtxInc rfl).2.2.1 [.Builtin .Str] .ARG_1 0⟩

/-- The runtime-call builder declares no joinpoint beyond those of its tail. -/
theorem anyJoin_modify_refcount (root : CodeGenHelp) (ctx : Context) (rc_ptr : Symbol)
    (alignment : Nat) (following : Stmt) (n : Nat) :
    Stmt.anyNode isJoinNode (modify_refcount root ctx rc_ptr alignment following n).1 =
      Stmt.anyNode isJoinNode following := by
  cases hop : ctx.op <;> simp [modify_refcount, hop, Stmt.anyNode, isJoinNode]

/-- The runtime-call builder requests no child helper beyond those of its
tail. -/
theorem anySpec_modify_refcount (root : CodeGenHelp) (ctx : Context) (rc_ptr : Symbol)
    (alignment : Nat) (following : Stmt) (n : Nat) :
    Stmt.anyNode isSpecializedCallNode
        (modify_refcount root ctx rc_ptr alignment following n).1 =
      Stmt.anyNode isSpecializedCallNode following := by
  cases hop : ctx.op <;> simp [modify_refcount, hop, Stmt.anyNode, isSpecializedCallNode]

/-- The runtime-call builder performs no mask step beyond those of its tail. -/
theorem anyMask_modify_refcount (root : CodeGenHelp) (ctx : Context) (rc_ptr : Symbol)
    (alignment : Nat) (following : Stmt) (n : Nat) :
    Stmt.anyNode isAndMaskNode (modify_refcount root ctx rc_ptr alignment following n).1 =
      Stmt.anyNode isAndMaskNode following := by
  cases hop : ctx.op <;> simp [modify_refcount, hop, Stmt.anyNode, isAndMaskNode]

/-- The slot-address builder declares no joinpoint beyond those of its tail. -/
theorem anyJoin_rc_ptr (root : CodeGenHelp) (s rc : Symbol) (mask : Bool) (f : Stmt)
    (n : Nat) :
    Stmt.anyNode isJoinNode (rc_ptr_from_data_ptr root s rc mask f n).1 =
      Stmt.anyNode isJoinNode f := by
  cases mask <;> simp [rc_ptr_from_data_ptr, Stmt.anyNode, isJoinNode]

/-- The slot-address builder requests no child helper beyond those of its
tail. -/
theorem anySpec_rc_ptr (root : CodeGenHelp) (s rc : Symbol) (mask : Bool) (f : Stmt)
    (n : Nat) :
    Stmt.anyNode isSpecializedCallNode (rc_ptr_from_data_ptr root s rc mask f n).1 =
      Stmt.anyNode isSpecializedCallNode f := by
  cases mask <;> simp [rc_ptr_from_data_ptr, Stmt.anyNode, isSpecializedCallNode]

/-- The slot-address builder emits the mask step exactly when asked to. -/
theorem anyMask_rc_ptr (root : CodeGenHelp) (s rc : Symbol) (mask : Bool) (f : Stmt)
    (n : Nat) :
    Stmt.anyNode isAndMaskNode (rc_ptr_from_data_ptr root s rc mask f n).1 =
      (mask || Stmt.anyNode isAndMaskNode f) := by
  cases mask <;> simp [rc_ptr_from_data_ptr, Stmt.anyNode, isAndMaskNode]

/-- The emitted return/jump declares no joinpoint. -/
theorem anyJoin_rc_return (ctx : Context) (n : Nat) :
    Stmt.anyNode isJoinNode (rc_return_stmt ctx n).1 = false :=
  anyNode_rc_return isJoinNode ctx n (fun _ _ => rfl) (fun _ => rfl) (fun _ => rfl)

/-- The emitted return/jump requests no child helper. -/
theorem anySpec_rc_return (ctx : Context) (n : Nat) :
    Stmt.anyNode isSpecializedCallNode (rc_return_stmt ctx n).1 = false :=
  anyNode_rc_return isSpecializedCallNode ctx n (fun _ _ => rfl) (fun _ => rfl)
    (fun _ => rfl)

/-- The emitted return/jump performs no mask step. -/
theorem anyMask_rc_return (ctx : Context) (n : Nat) :
    Stmt.anyNode isAndMaskNode (rc_return_stmt ctx n).1 = false :=
  anyNode_rc_return isAndMaskNode ctx n (fun _ _ => rfl) (fun _ => rfl) (fun _ => rfl)

/-- The element walk always declares its loop joinpoint. -/
theorem anyJoin_list_elems (root : CodeGenHelp) (ctx : Context) (el rl : Layout)
    (bul : UnionLayout) (len elems : Symbol) (n : Nat) :
    Stmt.anyNode isJoinNode (refcount_list_elems root ctx el rl bul len elems n).1 =
      true := by
  simp [refcount_list_elems, let_lowlevel, Stmt.anyNode, isJoinNode]

/-- C5 counterexample: the claim says code emitted under a `DecRef`
operation never contains a child helper call, but the inlined `DecRef`
lowering of a lambda set whose runtime representation is the struct `[Str]`
walks the struct fields and requests a child helper from the oracle. -/
theorem c5_counterexample :
    refcount_stmt 5 exRoot exCtxDecRef (.LambdaSet (.Struct [.Builtin .Str]))
        (.DecRef .ARG_1) (Stmt.Ret .ARG_1) 0 = some c5_lambda_pair ∧
      containsSpecializedCall c5_lambda_pair.1 = true :=
  ⟨rfl, rfl⟩

/-- C5 (amended): the list refcounter emits its element-walk loop if and
only if the element layout is refcounted and the operation is not `DecRef`;
under `DecRef` the list emission contains no child helper call, and the
tag-union refcounter replaces the per-variant field walk with a bare
return, so its `DecRef` emission contains no child helper calls and no
element loop. -/
theorem c5_amended :
    (∀ (root : CodeGenHelp) (ctx : Context) (layout el : Layout) (st : Symbol) (n : Nat),
      containsJoin (refcount_list root ctx layout el st n).1 =
        (el.is_refcounted && !ctx.op.is_decref)) ∧
    (∀ (root : CodeGenHelp) (ctx : Context) (layout el : Layout) (st : Symbol) (n : Nat),
      ctx.op.is_decref = true →
      containsSpecializedCall (refcount_list root ctx layout el st n).1 = false) ∧
    (∀ (root : CodeGenHelp) (ctx : Context) (u : UnionLayout)
        (tags : List (List Layout)) (nid : Option Nat) (st : Symbol) (n : Nat)
        (s : Stmt) (m : Nat),
      ctx.op.is_decref = true →
      refcount_tag_union_help root ctx u tags nid st n = some (s, m) →
      containsSpecializedCall s = false ∧ containsJoin s = false) := by
  refine ⟨?_, ?_, ?_⟩
  · intro root ctx layout el st n
    show Stmt.anyNode isJoinNode (refcount_list root ctx layout el st n).1 = _
    cases hc : el.is_refcounted && !ctx.op.is_decref with
    | true =>
        simp only [refcount_list, let_lowlevel, hc, if_true]
        simp [Stmt.anyNode, isJoinNode, anyNodeBranches, anyJoin_rc_return,
          anyJoin_modify_refcount, anyJoin_rc_ptr, anyJoin_list_elems]
    | false =>
        simp only [refcount_list, let_lowlevel, hc, Bool.false_eq_true, if_false]
        simp [Stmt.anyNode, isJoinNode, anyNodeBranches, anyJoin_rc_return,
          anyJoin_modify_refcount, anyJoin_rc_ptr]
  · intro root ctx layout el st n hdec
    show Stmt.anyNode isSpecializedCallNode (refcount_list root ctx layout el st n).1 = _
    have hc : (el.is_refcounted && !ctx.op.is_decref) = false := by
      simp [hdec]
    simp only [refcount_list, let_lowlevel, hc, Bool.false_eq_true, if_false]
    simp [Stmt.anyNode, isSpecializedCallNode, anyNodeBranches, anySpec_rc_return,
      anySpec_modify_refcount, anySpec_rc_ptr]
  · intro root ctx u tags nid st n s m hdec h
    simp only [refcount_tag_union_help, hdec, if_true] at h
    cases hnr : u.is_non_recursive with
    | true =>
        simp only [hnr, if_true, Option.some.injEq, Prod.mk.injEq] at h
        obtain ⟨hs, hm⟩ := h
        subst hs
        constructor
        · show Stmt.anyNode isSpecializedCallNode _ = false
          simp [Stmt.anyNode, isSpecializedCallNode, anySpec_rc_return]
        · show Stmt.anyNode isJoinNode _ = false
          simp [Stmt.anyNode, isJoinNode, anyJoin_rc_return]
    | false =>
        simp only [hnr, Bool.false_eq_true, if_false] at h
        cases hnid : nid with
        | none =>
            subst hnid
            simp only [Option.some.injEq, Prod.mk.injEq] at h
            obtain ⟨hs, hm⟩ := h
            subst hs
            constructor
            · show Stmt.anyNode isSpecializedCallNode _ = false
              simp [Stmt.anyNode, isSpecializedCallNode, anySpec_rc_return,
                anySpec_modify_refcount, anySpec_rc_ptr]
            · show Stmt.anyNode isJoinNode _ = false
              simp [Stmt.anyNode, isJoinNode, anyJoin_rc_return,
                anyJoin_modify_refcount, anyJoin_rc_ptr]
        | some id =>
            subst hnid
            simp only [Option.some.injEq, Prod.mk.injEq] at h
            obtain ⟨hs, hm⟩ := h
            subst hs
            constructor
            · show Stmt.anyNode isSpecializedCallNode _ = false
              simp [Stmt.anyNode, isSpecializedCallNode, anyNodeBranches,
                anySpec_rc_return, anySpec_modify_refcount, anySpec_rc_ptr]
            · show Stmt.anyNode isJoinNode _ = false
              simp [Stmt.anyNode, isJoinNode, anyNodeBranches, anyJoin_rc_return,
                anyJoin_modify_refcount, anyJoin_rc_ptr]

/-- C5 witness: the inlined `DecRef` emission for a recursive union at a
concrete input contains no child helper call and no loop. -/
theorem c5_witness :
    exCtxDecRef.op.is_decref = true ∧
      refcount_tag_union_help exRoot exCtxDecRef (.Recursive [[.Builtin .Str]])
          [[.Builtin .Str]] none .ARG_1 0 = some (c5_pair.1, c5_pair.2) ∧
      containsSpecializedCall c5_pair.1 = false ∧ containsJoin c5_pair.1 = false :=
  ⟨rfl, rfl,
    c5_amended.2.2 exRoot exCtxDecRef (.Recursive [[.Builtin .Str]]) [[.Builtin .Str]]
      none .ARG_1 0 c5_pair.1 c5_pair.2 rfl rfl⟩

/-- The variant field walk adds no mask step. -/
theorem refcount_tag_fields_loop_noMask (ctx : Context) (u : UnionLayout) (st : Symbol)
    (tid : Nat) :
    ∀ (iter : List (Nat × Layout)) (stmt : Stmt) (n : Nat),
      Stmt.anyNode isAndMaskNode stmt = false →
      Stmt.anyNode isAndMaskNode (refcount_tag_fields_loop ctx u st tid iter stmt n).1 =
        false := by
  intro iter
  induction iter with
  | nil => intro stmt n hs; exact hs
  | cons p rest ih =>
      intro stmt n hs
      obtain ⟨i, fl⟩ := p
      cases hf : fl.contains_refcounted with
      | false =>
          simp only [refcount_tag_fields_loop, hf, Bool.false_eq_true, if_false]
          exact ih stmt n hs
      | true =>
          simp only [refcount_tag_fields_loop, hf, if_true]
          apply ih
          simp only [Stmt.anyNode]
          rw [isAndMaskNode_call_spec]
          simp [hs, isAndMaskNode]

/-- A whole variant field walk contains no mask step. -/
theorem refcount_tag_fields_noMask (root : CodeGenHelp) (ctx : Context) (u : UnionLayout)
    (fls : List Layout) (st : Symbol) (tid n : Nat) :
    Stmt.anyNode isAndMaskNode (refcount_tag_fields root ctx u fls st tid n).1 = false :=
  refcount_tag_fields_loop_noMask ctx u st tid _ _ _ (anyMask_rc_return ctx n)

/-- No branch produced by the branch-building loop contains a mask step. -/
theorem build_tag_branches_noMask (root : CodeGenHelp) (ctx : Context) (u : UnionLayout)
    (nid : Option Nat) (st : Symbol) :
    ∀ (ts : List (List Layout)) (tid n : Nat),
      anyNodeBranches isAndMaskNode (build_tag_branches root ctx u nid st ts tid n).1 =
        false := by
  intro ts
  induction ts with
  | nil => intro tid n; rfl
  | cons t rest ih =>
      intro tid n
      simp only [build_tag_branches, anyNodeBranches]
      rw [refcount_tag_fields_noMask, ih]
      rfl

/-- Dropping the last branch preserves branch-list emptiness of matches. -/
theorem anyNodeBranches_dropLast (p : Stmt → Bool) :
    ∀ (l : List (Nat × Stmt)), anyNodeBranches p l = false →
      anyNodeBranches p l.dropLast = false := by
  intro l
  induction l with
  | nil => intro h; exact h
  | cons a rest ih =>
      intro h
      cases rest with
      | nil => rfl
      | cons b rest' =>
          obtain ⟨k, sa⟩ := a
          simp only [anyNodeBranches, Bool.or_eq_false_iff] at h
          rw [List.dropLast_cons₂]
          simp only [anyNodeBranches, h.1, Bool.false_or]
          have h2 : anyNodeBranches p (b :: rest') = false := by
            simp only [anyNodeBranches, Bool.or_eq_false_iff]
            exact h.2
          exact ih h2

/-- The last branch of a match-free branch list is match-free. -/
theorem anyNode_getLast (p : Stmt → Bool) :
    ∀ (l : List (Nat × Stmt)) (b : Nat × Stmt), anyNodeBranches p l = false →
      l.getLast? = some b → Stmt.anyNode p b.2 = false := by
  intro l
  induction l with
  | nil => intro b h hb; cases hb
  | cons a rest ih =>
      intro b h hb
      cases rest with
      | nil =>
          obtain ⟨k, sa⟩ := a
          simp only [List.getLast?_singleton, Option.some.injEq] at hb
          subst hb
          simp only [anyNodeBranches, Bool.or_eq_false_iff] at h
          exact h.1
      | cons c rest' =>
          obtain ⟨k, sa⟩ := a
          rw [List.getLast?_cons_cons] at hb
          simp only [anyNodeBranches, Bool.or_eq_false_iff] at h
          have h2 : anyNodeBranches p (c :: rest') = false := by
            simp only [anyNodeBranches, Bool.or_eq_false_iff]
            exact h.2
          exact ih b h2 hb

/-- C8: in the emitted code for a heap tag union, the pointer-mask step
before computing the refcount-slot address is present if and only if
`stores_tag_id_in_pointer` is true for that union layout at the target
pointer size. -/
theorem c8_mask_iff_stores_tag_id (root : CodeGenHelp) (ctx : Context) (u : UnionLayout)
    (tags : List (List Layout)) (nid : Option Nat) (st : Symbol) (n : Nat) (s : Stmt)
    (m : Nat) (hnr : u.is_non_recursive = false)
    (h : refcount_tag_union_help root ctx u tags nid st n = some (s, m)) :
    containsAndMask s = u.stores_tag_id_in_pointer root.ptr_size := by
  show Stmt.anyNode isAndMaskNode s = _
  cases hdec : ctx.op.is_decref with
  | true =>
      simp only [refcount_tag_union_help, hdec, if_true, hnr, Bool.false_eq_true,
        if_false] at h
      cases hnid : nid with
      | none =>
          subst hnid
          simp only [Option.some.injEq, Prod.mk.injEq] at h
          obtain ⟨hs, hm⟩ := h
          subst hs
          simp [Stmt.anyNode, isAndMaskNode, anyMask_rc_return,
            anyMask_modify_refcount, anyMask_rc_ptr]
      | some id =>
          subst hnid
          simp only [Option.some.injEq, Prod.mk.injEq] at h
          obtain ⟨hs, hm⟩ := h
          subst hs
          simp [Stmt.anyNode, isAndMaskNode, anyNodeBranches, anyMask_rc_return,
            anyMask_modify_refcount, anyMask_rc_ptr]
  | false =>
      simp only [refcount_tag_union_help, hdec, Bool.false_eq_true, if_false, hnr] at h
      cases hl : (build_tag_branches root ctx u nid st tags 0 (n + 1)).1.getLast? with
      | none =>
          rw [hl] at h
          simp at h
      | some last =>
          rw [hl] at h
          have hbr := build_tag_branches_noMask root ctx u nid st tags 0 (n + 1)
          have hdl := anyNodeBranches_dropLast isAndMaskNode _ hbr
          have hlast := anyNode_getLast isAndMaskNode _ last hbr hl
          cases hnid : nid with
          | none =>
              subst hnid
              simp only [Option.some.injEq, Prod.mk.injEq] at h
              obtain ⟨hs, hm⟩ := h
              subst hs
              simp [Stmt.anyNode, isAndMaskNode, anyNodeBranches, hdl, hlast,
                anyMask_rc_return, anyMask_modify_refcount, anyMask_rc_ptr]
          | some id =>
              subst hnid
              simp only [Option.some.injEq, Prod.mk.injEq] at h
              obtain ⟨hs, hm⟩ := h
              subst hs
              simp [Stmt.anyNode, isAndMaskNode, anyNodeBranches, hdl, hlast,
                anyMask_rc_return, anyMask_modify_refcount, anyMask_rc_ptr]

/-- C8 witness: the `Dec` emission for the recursive union `c8_u` (one
variant, pointer size 8) performs the mask step, matching
`stores_tag_id_in_pointer`. -/
theorem c8_witness :
    c8_u.is_non_recursive = false ∧
      refcount_tag_union_help exRoot exCtxDec c8_u [[.Builtin .Str]] none .ARG_1 0 =
        some (c8_pair.1, c8_pair.2) ∧
      containsAndMask c8_pair.1 = c8_u.stores_tag_id_in_pointer exRoot.ptr_size :=
  ⟨rfl, rfl, c8_mask_iff_stores_tag_id exRoot exCtxDec c8_u [[.Builtin .Str]] none
    .ARG_1 0 c8_pair.1 c8_pair.2 rfl rfl⟩

end Roc
